import Mathlib

/-!
Verification of the mongoose-ext collection accessor and connection registry
(src/index.js) against its natural-language specification.

The JavaScript source is shallowly embedded: objects used as string-keyed
maps become association lists with assignment modeled as insert-or-replace,
JS truthiness tests on optional values become explicit `truthy*` functions,
and the asynchronous driver callbacks become return values (the driver is
assumed to succeed unless the layer itself produces an error).  The external
MongoDB driver is modeled only as far as the spec describes it: a query plan
(filter, skip, limit, sort) executed over a snapshot list of documents, with
the sort step kept abstract (a function parameter) since this layer forwards
sort specifications to the driver unmodified.
-/

namespace MongooseExt

/-- A condition attached to one field of a filter: plain equality on a data
value, equality on the primary id, or the strict greater-than bound on the
primary id that `get` writes for keyset pagination
(the assignment of the gt bound to the `_id` key of the filter at source line 74). -/
inductive FieldCond where
  | eqVal (v : Int)
  | eqId (oid : String)
  | gtId (oid : String)
deriving DecidableEq

/-- A mongoose filter object: a string-keyed mapping of field conditions. -/
abbrev Filter := List (String × FieldCond)

/-- A stored document: the primary id (`_id` in the source, an ObjectId
modeled as a string compared bytewise) plus the data fields. -/
structure Doc where
  oid : String
  fields : List (String × Int)
deriving DecidableEq

/-- Whether a document satisfies one (field, condition) pair of a filter.
This models the filter semantics of the external driver as the spec describes
them; `$gt` on ObjectIds is their bytewise (string) order. -/
def condHolds (d : Doc) : String × FieldCond → Bool
  | (k, FieldCond.eqVal v) => d.fields.lookup k == some v
  | (k, FieldCond.eqId s) => k == "_id" && d.oid == s
  | (k, FieldCond.gtId s) => k == "_id" && decide (s < d.oid)

/-- Whether a document matches every condition of a filter. -/
def Doc.matches (d : Doc) (q : Filter) : Bool :=
  q.all (condHolds d)

/-- JS property assignment `m[k] = v` on an object viewed as an association
list: replace the entry if the key is present, append it otherwise. -/
def assocSet {α β : Type} [BEq α] (m : List (α × β)) (k : α) (v : β) :
    List (α × β) :=
  if m.any (fun p => p.1 == k) then
    m.map (fun p => if p.1 == k then (k, v) else p)
  else m ++ [(k, v)]

/-- A sort argument as accepted by `get`: a bare direction number or a
field-to-direction mapping object. -/
inductive SortArg where
  | dir (d : Int)
  | mapping (m : List (String × Int))
deriving DecidableEq

/-- The options bag accepted by `get` / `getAll` (src/index.js lines 72-88):
every field is optional, and the source tests each one with JS truthiness. -/
structure GetOptions where
  pageSize : Option Int := none
  page : Option Int := none
  lastId : Option String := none
  sort : Option SortArg := none
deriving DecidableEq

/-- JS truthiness of an optional number: absent and 0 are falsy. -/
def truthyInt : Option Int → Bool
  | none => false
  | some n => n != 0

/-- JS truthiness of an optional string: absent and the empty string are
falsy. -/
def truthyStr : Option String → Bool
  | none => false
  | some s => s != ""

/-- JS truthiness of an optional sort argument: a number is truthy when
nonzero, an object is always truthy. -/
def truthySort : Option SortArg → Bool
  | none => false
  | some (SortArg.dir d) => d != 0
  | some (SortArg.mapping _) => true

/-- The cursor configuration handed to the driver by `get`: the filter the
`find` was issued with and the `skip` / `limit` / `sort` cursor calls. -/
structure QueryPlan where
  filter : Filter
  skip : Option Int := none
  limit : Option Int := none
  sort : Option (List (String × Int)) := none
deriving DecidableEq

/-- The `options.sort = options.sort || -1` defaulting at line 82 of the
source: a falsy sort becomes the bare direction -1. -/
def sortDefault (s : Option SortArg) : Option SortArg :=
  if truthySort s then s else some (SortArg.dir (-1))

/-- Line 86 of the source: a sort argument that is not a plain object is
applied to the primary id, a mapping is used verbatim. -/
def normalizeSort : SortArg → List (String × Int)
  | SortArg.mapping m => m
  | SortArg.dir d => [("_id", d)]

/-- The paging portion of `get` (src/index.js lines 72-83): under a truthy
`pageSize`, either the keyset branch (truthy `lastId`: write the `$gt`
bound into the filter, `limit` only) or the offset branch (default `page`,
`skip = pageSize * (page - 1)`, `limit = pageSize`), then default the sort.
Returns the (possibly mutated) filter and options plus the plan so far. -/
def pagedPart (query : Filter) (options : GetOptions) :
    Filter × GetOptions × Option QueryPlan :=
  if truthyInt options.pageSize then
    if truthyStr options.lastId then
      let q2 := assocSet query "_id" (FieldCond.gtId (options.lastId.getD ""))
      (q2, { options with sort := sortDefault options.sort },
        some { filter := q2, skip := none, limit := options.pageSize,
               sort := none })
    else
      let pg := if truthyInt options.page then options.page else some 1
      (query, { options with page := pg, sort := sortDefault options.sort },
        some { filter := query,
               skip := some (options.pageSize.getD 0 * (pg.getD 1 - 1)),
               limit := options.pageSize, sort := none })
  else (query, options, none)

/-- The sort portion of `get` (src/index.js lines 84-88): under a truthy
sort, build the query if paging did not, and apply the normalized sort. -/
def sortPart (q : Filter) (o : GetOptions) (qp : Option QueryPlan) :
    Option QueryPlan :=
  if truthySort o.sort then
    let base := qp.getD { filter := q }
    some { base with
           sort := some (normalizeSort (o.sort.getD (SortArg.dir (-1)))) }
  else qp

/-- The query-plan translation of `ModelClass.prototype.get` (src/index.js
lines 72-91), after argument resolution: returns the executed plan together
with the final states of the caller-supplied filter and options objects
(which the source mutates in place). -/
def getPlan (query : Filter) (options : GetOptions) :
    QueryPlan × Filter × GetOptions :=
  match pagedPart query options with
  | (q, o, qp) => ((sortPart q o qp).getD { filter := q }, q, o)

/-- Execution of a query plan by the external driver over a snapshot of the
collection: filter, then sort, then skip, then limit.  The sort step is a
parameter because this layer forwards the sort specification unmodified. -/
def execPlan (sortFn : List (String × Int) → List Doc → List Doc)
    (db : List Doc) (p : QueryPlan) : List Doc :=
  let m := db.filter (fun d => d.matches p.filter)
  let s := match p.sort with
    | none => m
    | some spec => sortFn spec m
  let sk := match p.skip with
    | none => s
    | some k => s.drop k.toNat
  match p.limit with
  | none => sk
  | some l => sk.take l.toNat

/-- The errors this layer can deliver through a callback.  The source only
ever constructs `notFound` (an object whose message field reads not found);
`invalidOptions` is the InvalidOptions vocabulary of the spec, present so that its absence from every
code path is statable. -/
inductive DbError where
  | notFound
  | invalidOptions
deriving DecidableEq

namespace ModelClass

/-- `ModelClass.prototype.get` (src/index.js lines 56-93) after argument
resolution, with the driver modeled by `execPlan` over a database snapshot
and assumed to succeed: the callback pair (error, result) plus the final
states of the filter and options objects of the caller. -/
def get (sortFn : List (String × Int) → List Doc → List Doc)
    (db : List Doc) (query : Filter) (options : GetOptions) :
    (Option DbError × List Doc) × Filter × GetOptions :=
  match getPlan query options with
  | (p, q, o) => ((none, execPlan sortFn db p), q, o)

/-- `ModelClass.prototype.getAll` (src/index.js lines 101-109): delegates to
`get` with the empty filter. -/
def getAll (sortFn : List (String × Int) → List Doc → List Doc)
    (db : List Doc) (options : GetOptions) :
    (Option DbError × List Doc) × Filter × GetOptions :=
  get sortFn db [] options

/-- One step of a `$set` merge: assign one field of a document. -/
def setDocField (fs : List (String × Int)) (k : String) (v : Int) :
    List (String × Int) :=
  assocSet fs k v

/-- The `$set` merge update applied to one document: every field of the
partial data is assigned into the document. -/
def applySet (d : Doc) (data : List (String × Int)) : Doc :=
  { d with fields := data.foldl (fun fs kv => setDocField fs kv.1 kv.2) d.fields }

/-- `ModelClass.prototype.set` (src/index.js lines 151-173): find the
matches; with zero matches deliver the not-found error and leave the
collection untouched; otherwise issue the `$set` multi update against all
matches and re-fetch `{_id: result[0]._id}` (the first matched id) for the
callback.  Returns the new collection state and the callback pair. -/
def set (db : List Doc) (query : Filter) (data : List (String × Int)) :
    List Doc × (Option DbError × Option (List Doc)) :=
  match db.filter (fun d => d.matches query) with
  | [] => (db, (some DbError.notFound, none))
  | r :: _ =>
    let db2 := db.map (fun d => if d.matches query then applySet d data else d)
    (db2, (none,
      some (db2.filter (fun d => d.matches [("_id", FieldCond.eqId r.oid)]))))

/-- `ModelClass.prototype.delete` (src/index.js lines 247-269): find the
matches; with zero matches deliver the not-found error and leave the
collection untouched; otherwise remove every match and hand the callback the
pre-deletion match list. -/
def delete (db : List Doc) (query : Filter) :
    List Doc × (Option DbError × Option (List Doc)) :=
  match db.filter (fun d => d.matches query) with
  | [] => (db, (some DbError.notFound, none))
  | r :: rs =>
    (db.filter (fun d => !d.matches query), (none, some (r :: rs)))

end ModelClass

/-- The value found in an options argument position: absent, a callable, or
an options object (payload type varies by entry point). -/
inductive OptArg (α : Type) where
  | undef
  | callable (f : Nat)
  | obj (o : α)
deriving DecidableEq

/-- Whether the value in the options position is callable
(the typeof function test of the source). -/
def OptArg.isCallable {α : Type} : OptArg α → Bool
  | OptArg.callable _ => true
  | _ => false

/-- The value found in a callback argument position or produced by argument
resolution: absent, the substituted no-op function, or a caller-supplied
function (identified by an opaque tag). -/
inductive CbVal where
  | undef
  | noop
  | fn (f : Nat)
deriving DecidableEq

/-- Argument resolution of `ModelClass.prototype.get` (src/index.js lines
63-70): `options = options || {}`, `callback = callback || function(){}`,
then a callable in the options position becomes the callback with options
reset to the empty object `dflt`. -/
def resolveGet {α : Type} (options : OptArg α) (callback : CbVal)
    (dflt : α) : α × CbVal :=
  let o1 := match options with
    | OptArg.undef => OptArg.obj dflt
    | x => x
  let c1 := match callback with
    | CbVal.undef => CbVal.noop
    | c => c
  match o1 with
  | OptArg.callable f => (dflt, CbVal.fn f)
  | OptArg.obj o => (o, c1)
  | OptArg.undef => (dflt, c1)

/-- Argument resolution of `ModelClass.prototype.getAll` (src/index.js lines
102-106) composed with its delegation to `get` (line 108): the callback is
defaulted, a callable options argument becomes the callback, and the result
passes through the resolution inside `get`. -/
def resolveGetAll {α : Type} (options : OptArg α) (callback : CbVal)
    (dflt : α) : α × CbVal :=
  let c1 := match callback with
    | CbVal.undef => CbVal.noop
    | c => c
  match options with
  | OptArg.callable f => resolveGet (OptArg.obj dflt) (CbVal.fn f) dflt
  | x => resolveGet x c1 dflt

/-- Argument resolution of `ModelClass.prototype.update` (src/index.js lines
205-211): a callable options argument becomes the callback, otherwise both
positions are defaulted. -/
def resolveUpdate {α : Type} (options : OptArg α) (callback : CbVal)
    (dflt : α) : α × CbVal :=
  match options with
  | OptArg.callable f => (dflt, CbVal.fn f)
  | x =>
    let o := match x with
      | OptArg.obj o => o
      | _ => dflt
    let c := match callback with
      | CbVal.fn f => CbVal.fn f
      | CbVal.noop => CbVal.noop
      | CbVal.undef => CbVal.noop
    (o, c)

/-- Argument resolution of `Connection.prototype.formatUri` (src/index.js
lines 340-350): a callable options argument becomes the callback; otherwise
an options value that is not a plain object is coerced to the empty object
and a non-function callback is replaced by the no-op. -/
def resolveFormatUri {α : Type} (options : OptArg α) (callback : CbVal)
    (dflt : α) : α × CbVal :=
  match options with
  | OptArg.callable f => (dflt, CbVal.fn f)
  | x =>
    let o := match x with
      | OptArg.obj o => o
      | _ => dflt
    let c := match callback with
      | CbVal.fn f => CbVal.fn f
      | CbVal.noop => CbVal.noop
      | CbVal.undef => CbVal.noop
    (o, c)

/-- The connection options object passed to `open` / `formatUri`: the
credential and port fields the source inspects, the `useMongoClient` flag it
writes, and the remaining entries it never touches. -/
structure DbOptions where
  user : Option String := none
  pass : Option String := none
  port : Option Int := none
  useMongoClient : Option Bool := none
  extra : List (String × Int) := []
deriving DecidableEq

/-- The argument list of `Connection.prototype.open` (and of the registry
operation `connectDatebase` after the name): server host, database name, optional
options, optional callback. -/
structure OpenArgs where
  dbServer : String
  dbName : String
  dbOptions : OptArg DbOptions := OptArg.undef
  callback : CbVal := CbVal.undef
deriving DecidableEq

/-- Calls issued to the underlying driver connection object. -/
inductive ConnAction where
  | openUri (uri : String) (opts : DbOptions)
  | close
deriving DecidableEq

/-- The `Connection` handle (src/index.js lines 317-326): name, connected
flag, the derived uri and stripped options, and a log of the calls made on
the exclusively owned underlying driver connection. -/
structure Connection where
  name : String
  connected : Bool := false
  connectUri : Option String := none
  connectOptions : Option DbOptions := none
  log : List ConnAction := []
deriving DecidableEq

/-- `Connection.prototype.formatUri` (src/index.js lines 333-366): resolve
the optional options/callback arguments, build the connection uri
(credentials included exactly when user and pass are both truthy, port
defaulting to 27017), strip user/pass/port from the options, set
`useMongoClient = true`, store uri and options on the handle, and return
the resolved callback. -/
def Connection.formatUri (c : Connection) (a : OpenArgs) :
    Connection × CbVal :=
  let (o, cb) := resolveFormatUri a.dbOptions a.callback { }
  let portVal : Int := if truthyInt o.port then o.port.getD 0 else 27017
  let base :=
    if truthyStr o.user && truthyStr o.pass then
      "mongodb://" ++ o.user.getD "" ++ ":" ++ o.pass.getD "" ++ "@" ++
        a.dbServer ++ ":" ++ toString portVal
    else
      "mongodb://" ++ a.dbServer ++ ":" ++ toString portVal
  let o2 := { o with user := none, pass := none, port := none,
                     useMongoClient := some true }
  ({ c with connectUri := some (base ++ "/" ++ a.dbName),
            connectOptions := some o2 }, cb)

/-- `Connection.prototype.open` (src/index.js lines 372-378): format the
uri, then call `openUri` on the driver connection.  The `connected` flag is
not set here; it flips only when the driver later emits its connected
event, modeled by `onConnectedEvent`. -/
def Connection.openConn (c : Connection) (a : OpenArgs) : Connection :=
  let c2 := (Connection.formatUri c a).1
  { c2 with log := c2.log ++
      [ConnAction.openUri (c2.connectUri.getD "") (c2.connectOptions.getD { })] }

/-- The connected event handler of the driver registered by `open` (src/index.js
lines 375-377): sets the connected flag. -/
def onConnectedEvent (c : Connection) : Connection :=
  { c with connected := true }

/-- `Connection.prototype.close` (src/index.js lines 384-389): close the
driver connection, then clear the connected flag (the supplied callback runs
after this). -/
def Connection.close (c : Connection) : Connection :=
  { c with connected := false, log := c.log ++ [ConnAction.close] }

/-- The module-level registry object (src/index.js lines 413-445): the
`_connections` name-to-handle map, the handle-valued properties the module
object also carries (`this[connectedName]`), a heap giving each handle
object an identity, and a fresh-identity counter. -/
structure Registry where
  connections : List (String × Nat) := []
  members : List (String × Nat) := []
  heap : List (Nat × Connection) := []
  nextId : Nat := 0
deriving DecidableEq

/-- `connectDatebase` (src/index.js lines 416-433; source spelling): reuse
the handle registered under the name when one exists -- closing it first
when it is currently connected (the close callback clears the flag and
reopens), opening it directly otherwise -- and create, register and open a
fresh handle when none exists.  Returns the new registry state and the
identity of the handle returned to the caller (`this[connectedName]`). -/
def connectDatebase (st : Registry) (name : String) (a : OpenArgs) :
    Registry × Option Nat :=
  match st.connections.lookup name with
  | some cid =>
    let st2 :=
      match st.heap.lookup cid with
      | some conn =>
        let conn2 :=
          if conn.connected then
            Connection.openConn
              { Connection.close conn with connected := false } a
          else
            Connection.openConn conn a
        { st with heap := assocSet st.heap cid conn2 }
      | none => st
    (st2, st2.members.lookup name)
  | none =>
    let conn := Connection.openConn { name := name } a
    let st2 : Registry :=
      { st with
        members := assocSet st.members name st.nextId,
        connections := assocSet st.connections name st.nextId,
        heap := assocSet st.heap st.nextId conn,
        nextId := st.nextId + 1 }
    (st2, st2.members.lookup name)

/-- `closeDatabase` (src/index.js lines 435-444): a no-op when the name is
unregistered, otherwise close the handle (the callback clears the flag
again). -/
def closeDatabase (st : Registry) (name : String) : Registry :=
  match st.connections.lookup name with
  | none => st
  | some cid =>
    match st.heap.lookup cid with
    | none => st
    | some conn =>
      let conn2 := { Connection.close conn with connected := false }
      { st with heap := assocSet st.heap cid conn2 }

/-- Well-formedness of the registry state, true initially and preserved by
its operations: the name map has no duplicate names, the module properties
mirror the `_connections` map, every registered identity resolves in the
heap, heap identities are unique, and all identities are below the fresh
counter. -/
def Registry.wf (st : Registry) : Prop :=
  (st.connections.map Prod.fst).Nodup ∧
  st.members = st.connections ∧
  (∀ p ∈ st.connections, (st.heap.lookup p.2).isSome = true) ∧
  (st.heap.map Prod.fst).Nodup ∧
  (∀ p ∈ st.heap, p.1 < st.nextId)

instance (st : Registry) : Decidable st.wf := by
  unfold Registry.wf
  exact inferInstance

/-! Reduction lemmas for the `get` translation, one per branch of the
paging and sort conditionals of the source. -/

theorem truthySort_sortDefault (s : Option SortArg) :
    truthySort (sortDefault s) = true := by
  unfold sortDefault
  by_cases h : truthySort s = true
  · rw [if_pos h]; exact h
  · rw [if_neg h]; decide

theorem getPlan_lastId (q : Filter) (o : GetOptions)
    (hP : truthyInt o.pageSize = true) (hL : truthyStr o.lastId = true) :
    getPlan q o =
      ({ filter := assocSet q "_id" (FieldCond.gtId (o.lastId.getD "")),
         skip := none, limit := o.pageSize,
         sort := some (normalizeSort
           ((sortDefault o.sort).getD (SortArg.dir (-1)))) },
       assocSet q "_id" (FieldCond.gtId (o.lastId.getD "")),
       { o with sort := sortDefault o.sort }) := by
  unfold getPlan pagedPart sortPart
  simp [hP, hL, truthySort_sortDefault]

theorem getPlan_offset (q : Filter) (o : GetOptions)
    (hP : truthyInt o.pageSize = true) (hL : truthyStr o.lastId = false) :
    getPlan q o =
      ({ filter := q,
         skip := some (o.pageSize.getD 0 *
           ((if truthyInt o.page then o.page else some 1).getD 1 - 1)),
         limit := o.pageSize,
         sort := some (normalizeSort
           ((sortDefault o.sort).getD (SortArg.dir (-1)))) },
       q,
       { o with page := if truthyInt o.page then o.page else some 1,
                sort := sortDefault o.sort }) := by
  unfold getPlan pagedPart sortPart
  simp [hP, hL, truthySort_sortDefault]

theorem getPlan_unpaged_sorted (q : Filter) (o : GetOptions)
    (hP : truthyInt o.pageSize = false) (hS : truthySort o.sort = true) :
    getPlan q o =
      ({ filter := q, skip := none, limit := none,
         sort := some (normalizeSort (o.sort.getD (SortArg.dir (-1)))) },
       q, o) := by
  unfold getPlan pagedPart sortPart
  simp [hP, hS]

theorem getPlan_unpaged_plain (q : Filter) (o : GetOptions)
    (hP : truthyInt o.pageSize = false) (hS : truthySort o.sort = false) :
    getPlan q o = ({ filter := q }, q, o) := by
  unfold getPlan pagedPart sortPart
  simp [hP, hS]

/-! Association-list lemmas about `List.lookup` and `assocSet`, used for the
filter-mutation and registry claims. -/

section AssocLemmas

variable {α β : Type} [BEq α] [LawfulBEq α]

theorem assoc_lookup_mem {l : List (α × β)} {k : α} {v : β}
    (h : l.lookup k = some v) : (k, v) ∈ l := by
  induction l with
  | nil => simp at h
  | cons p t ih =>
    obtain ⟨k0, v0⟩ := p
    cases hk : k == k0 with
    | true =>
      simp only [List.lookup_cons, hk] at h
      have hv : v0 = v := Option.some.inj h
      have hk2 : k = k0 := eq_of_beq hk
      subst hv; subst hk2
      exact List.mem_cons_self _ _
    | false =>
      simp only [List.lookup_cons, hk] at h
      exact List.mem_cons_of_mem _ (ih h)

theorem assoc_lookup_none_key {l : List (α × β)} {k : α}
    (h : l.lookup k = none) : ∀ p ∈ l, (p.1 == k) = false := by
  induction l with
  | nil => simp
  | cons p t ih =>
    obtain ⟨k0, v0⟩ := p
    cases hk : k == k0 with
    | true =>
      simp only [List.lookup_cons, hk] at h
      exact Option.noConfusion h
    | false =>
      simp only [List.lookup_cons, hk] at h
      intro p hp
      rcases List.mem_cons.mp hp with h1 | h2
      · subst h1
        rw [beq_eq_false_iff_ne] at hk ⊢
        exact Ne.symm hk
      · exact ih h p h2

theorem assoc_none_of_no_key {l : List (α × β)} {k : α}
    (h : ∀ p ∈ l, (p.1 == k) = false) : l.lookup k = none := by
  induction l with
  | nil => simp
  | cons p t ih =>
    obtain ⟨k0, v0⟩ := p
    have h0 : (k0 == k) = false := h (k0, v0) (List.mem_cons_self _ _)
    have hk : (k == k0) = false := by
      rw [beq_eq_false_iff_ne] at h0 ⊢
      exact Ne.symm h0
    simp only [List.lookup_cons, hk]
    exact ih (fun p hp => h p (List.mem_cons_of_mem _ hp))

theorem assoc_any_of_lookup_isSome {l : List (α × β)} {k : α}
    (h : (l.lookup k).isSome = true) : l.any (fun p => p.1 == k) = true := by
  cases hc : l.lookup k with
  | none => rw [hc] at h; simp at h
  | some v =>
    have hm := assoc_lookup_mem hc
    rw [List.any_eq_true]
    exact ⟨(k, v), hm, by simp⟩

theorem assocSet_of_no_key {l : List (α × β)} {k : α} {v : β}
    (h : l.any (fun p => p.1 == k) = false) :
    assocSet l k v = l ++ [(k, v)] := by
  unfold assocSet
  simp [h]

theorem assocSet_map_fst {l : List (α × β)} {k : α} {v : β}
    (h : l.any (fun p => p.1 == k) = true) :
    (assocSet l k v).map Prod.fst = l.map Prod.fst := by
  unfold assocSet
  rw [if_pos h, List.map_map]
  refine List.map_congr_left (fun p _ => ?_)
  by_cases hp : (p.1 == k) = true
  · simp [hp, Eq.symm (eq_of_beq hp)]
  · simp [hp]

theorem assoc_replace_lookup {l : List (α × β)} {k : α} {v : β}
    (h : l.any (fun p => p.1 == k) = true) :
    (l.map (fun p => if p.1 == k then (k, v) else p)).lookup k = some v := by
  induction l with
  | nil => simp at h
  | cons p t ih =>
    obtain ⟨k0, v0⟩ := p
    cases hk : k0 == k with
    | true =>
      simp only [List.map_cons, hk, if_true]
      simp [List.lookup_cons]
    | false =>
      have ht : t.any (fun p => p.1 == k) = true := by
        simpa [List.any_cons, hk] using h
      simp only [List.map_cons, hk, Bool.false_eq_true, if_false]
      rw [List.lookup_cons]
      have hk2 : (k == k0) = false := by
        rw [beq_eq_false_iff_ne] at hk ⊢
        exact Ne.symm hk
      simp only [hk2]
      exact ih ht

theorem assocSet_lookup_self {l : List (α × β)} {k : α} {v : β}
    (h : l.any (fun p => p.1 == k) = true) :
    (assocSet l k v).lookup k = some v := by
  unfold assocSet
  rw [if_pos h]
  exact assoc_replace_lookup h

theorem assoc_replace_lookup_isSome {l : List (α × β)} {k : α} {v : β}
    (j : α) :
    ((l.map (fun p => if p.1 == k then (k, v) else p)).lookup j).isSome
      = (l.lookup j).isSome := by
  induction l with
  | nil => simp
  | cons p t ih =>
    obtain ⟨k0, v0⟩ := p
    by_cases hk : (k0 == k) = true
    · have hk0 : k0 = k := eq_of_beq hk
      subst hk0
      simp only [List.map_cons, hk, if_true]
      rw [List.lookup_cons, List.lookup_cons]
      cases hj : j == k0 <;> simp [hj, ih]
    · simp only [List.map_cons, hk, if_false]
      rw [List.lookup_cons, List.lookup_cons]
      cases hj : j == k0 <;> simp [hj, ih]

theorem assocSet_lookup_isSome {l : List (α × β)} {k : α} {v : β} (j : α)
    (h : l.any (fun p => p.1 == k) = true) :
    ((assocSet l k v).lookup j).isSome = (l.lookup j).isSome := by
  unfold assocSet
  rw [if_pos h]
  exact assoc_replace_lookup_isSome j

theorem assoc_lookup_append_left {l t : List (α × β)} {k : α} {v : β}
    (h : l.lookup k = some v) : (l ++ t).lookup k = some v := by
  induction l with
  | nil => simp at h
  | cons p s ih =>
    obtain ⟨k0, v0⟩ := p
    rw [List.cons_append, List.lookup_cons]
    rw [List.lookup_cons] at h
    cases hk : k == k0 <;> simp only [hk] at h ⊢
    · exact ih h
    · exact h

theorem assoc_lookup_append_right {l t : List (α × β)} {k : α}
    (h : l.lookup k = none) : (l ++ t).lookup k = t.lookup k := by
  induction l with
  | nil => simp
  | cons p s ih =>
    obtain ⟨k0, v0⟩ := p
    rw [List.cons_append, List.lookup_cons]
    rw [List.lookup_cons] at h
    cases hk : k == k0 with
    | true =>
      simp only [hk] at h
      exact Option.noConfusion h
    | false =>
      simp only [hk] at h ⊢
      exact ih h

theorem any_key_eq_false {l : List (α × β)} {k : α}
    (h : ∀ p ∈ l, (p.1 == k) = false) :
    l.any (fun p => p.1 == k) = false := by
  cases hA : l.any (fun p => p.1 == k) with
  | false => rfl
  | true =>
    obtain ⟨p, hp, hpk⟩ := List.any_eq_true.mp hA
    rw [h p hp] at hpk
    exact Bool.noConfusion hpk

theorem mem_assocSet_self {l : List (α × β)} {k : α} {v : β} :
    (k, v) ∈ assocSet l k v := by
  unfold assocSet
  by_cases h : l.any (fun p => p.1 == k) = true
  · rw [if_pos h]
    rw [List.any_eq_true] at h
    obtain ⟨p, hp, hpk⟩ := h
    exact List.mem_map.mpr ⟨p, hp, by simp [hpk]⟩
  · rw [if_neg h]
    simp

end AssocLemmas

/-! Claim theorems. -/

/-- C1: for every filter that matches zero stored documents, `set` and
`delete` complete with the NotFound error delivered through the callback
(error slot `notFound`, result slot empty) and leave the stored documents
exactly as they were -- the check-then-act protocol rejects before issuing
any write. -/
theorem set_delete_notFound (db : List Doc) (q : Filter)
    (data : List (String × Int)) (h : ∀ d ∈ db, d.matches q = false) :
    ModelClass.set db q data = (db, (some DbError.notFound, none)) ∧
    ModelClass.delete db q = (db, (some DbError.notFound, none)) := by
  have hf : db.filter (fun d => d.matches q) = [] :=
    List.filter_eq_nil_iff.mpr (fun d hd => by simp [h d hd])
  constructor
  · unfold ModelClass.set
    rw [hf]
  · unfold ModelClass.delete
    rw [hf]

/-- Witness for C1: a one-document store and a filter matching nothing. -/
theorem set_delete_notFound_witness :
    (∀ d ∈ [Doc.mk "a" [("x", 1)]],
        d.matches [("x", FieldCond.eqVal 2)] = false) ∧
    (ModelClass.set [Doc.mk "a" [("x", 1)]] [("x", FieldCond.eqVal 2)]
        [("y", 5)]
        = ([Doc.mk "a" [("x", 1)]], (some DbError.notFound, none)) ∧
     ModelClass.delete [Doc.mk "a" [("x", 1)]] [("x", FieldCond.eqVal 2)]
        = ([Doc.mk "a" [("x", 1)]], (some DbError.notFound, none))) :=
  ⟨by decide, set_delete_notFound _ _ _ (by decide)⟩

/-- C2 counterexample: a call with pageSize 0 completes with no error at
all and behaves as an unpaged query (whole store returned, empty plan), and
a call with a negative pageSize forwards that value to the driver as the
limit -- contradicting the claim that a zero or negative pageSize fails
with an InvalidOptions error. -/
theorem get_invalidOptions_cex :
    (ModelClass.get (fun _ l => l) [Doc.mk "a" []] []
        { pageSize := some 0 }).1 = (none, [Doc.mk "a" []]) ∧
    (getPlan [] { pageSize := some 0 }).1 = { filter := [] } ∧
    (getPlan [] { pageSize := some (-5), page := some 2 }).1.limit
        = some (-5) := by
  decide

/-- C2 amended: `get` never reports InvalidOptions -- its error slot is
always empty at this layer; a pageSize of 0 is JS-falsy and is silently
treated as no paging (same plan as with pageSize absent), and any nonzero
pageSize, negative ones included, is forwarded to the driver as the
limit. -/
theorem get_no_invalidOptions
    (sortFn : List (String × Int) → List Doc → List Doc)
    (db : List Doc) (q : Filter) (o : GetOptions) :
    (ModelClass.get sortFn db q o).1.1 = none ∧
    (o.pageSize = some 0 →
      (getPlan q o).1 = (getPlan q { o with pageSize := none }).1) ∧
    (∀ p : Int, p ≠ 0 → o.pageSize = some p →
      (getPlan q o).1.limit = some p) := by
  refine ⟨rfl, fun h0 => ?_, fun p hp hps => ?_⟩
  · have hP : truthyInt o.pageSize = false := by rw [h0]; decide
    have hP2 : truthyInt (GetOptions.pageSize { o with pageSize := none })
        = false := rfl
    by_cases hS : truthySort o.sort = true
    · rw [getPlan_unpaged_sorted q o hP hS,
        getPlan_unpaged_sorted q { o with pageSize := none } hP2 hS]
    · have hS2 : truthySort o.sort = false := by simpa using hS
      rw [getPlan_unpaged_plain q o hP hS2,
        getPlan_unpaged_plain q { o with pageSize := none } hP2 hS2]
  · have hP : truthyInt o.pageSize = true := by
      rw [hps]; simpa [truthyInt] using hp
    by_cases hL : truthyStr o.lastId = true
    · rw [getPlan_lastId q o hP hL]
      simpa using hps
    · have hL2 : truthyStr o.lastId = false := by simpa using hL
      rw [getPlan_offset q o hP hL2]
      simpa using hps

/-- Witness for C2 amended, at pageSize -5. -/
theorem get_no_invalidOptions_witness :
    ((-5 : Int) ≠ 0 ∧
      GetOptions.pageSize { pageSize := some (-5) } = some (-5)) ∧
    ((ModelClass.get (fun _ l => l) [Doc.mk "a" []] []
        { pageSize := some (-5) }).1.1 = none ∧
     (getPlan [] { pageSize := some (-5) }).1.limit = some (-5)) :=
  ⟨⟨by decide, rfl⟩,
   (get_no_invalidOptions (fun _ l => l) [Doc.mk "a" []] []
       { pageSize := some (-5) }).1,
   (get_no_invalidOptions (fun _ l => l) [Doc.mk "a" []] []
       { pageSize := some (-5) }).2.2 (-5) (by decide) rfl⟩

/-- C3: with pageSize and lastId both set (a positive page size and a
nonempty id, per the data model), the executed plan uses the base filter
with the `_id` strictly-greater-than bound written in, applies
limit = pageSize and no skip, and is independent of any supplied page
value; executing the plan yields only documents whose primary id exceeds
lastId, capped at pageSize many. -/
theorem get_keyset_pagination (q : Filter) (o : GetOptions) (P : Int)
    (L : String) (hP : o.pageSize = some P) (hPpos : 0 < P)
    (hL : o.lastId = some L) (hLne : L ≠ "") :
    (getPlan q o).1.filter = assocSet q "_id" (FieldCond.gtId L) ∧
    (getPlan q o).1.skip = none ∧
    (getPlan q o).1.limit = some P ∧
    (∀ pg, (getPlan q { o with page := pg }).1 = (getPlan q o).1) ∧
    (∀ sortFn db, (∀ spec l d, d ∈ sortFn spec l → d ∈ l) →
      (execPlan sortFn db (getPlan q o).1).all
        (fun d => decide (L < d.oid)) = true ∧
      (execPlan sortFn db (getPlan q o).1).length ≤ P.toNat) := by
  have hPt : truthyInt o.pageSize = true := by
    rw [hP]
    simpa [truthyInt] using ne_of_gt hPpos
  have hLt : truthyStr o.lastId = true := by
    rw [hL]
    simpa [truthyStr] using hLne
  have hplan := getPlan_lastId q o hPt hLt
  refine ⟨?_, ?_, ?_, fun pg => ?_, fun sortFn db hperm => ?_⟩
  · rw [hplan]
    simp [hL]
  · rw [hplan]
  · rw [hplan, hP]
  · rw [hplan, getPlan_lastId q { o with page := pg } hPt hLt]
  · have hplan1 : (getPlan q o).1 =
        { filter := assocSet q "_id" (FieldCond.gtId L), skip := none,
          limit := some P,
          sort := some (normalizeSort
            ((sortDefault o.sort).getD (SortArg.dir (-1)))) } := by
      rw [hplan]
      simp [hL, hP]
    rw [hplan1]
    constructor
    · rw [List.all_eq_true]
      intro d hd
      simp only [execPlan] at hd
      have hd2 := List.mem_of_mem_take hd
      have hd3 := hperm _ _ _ hd2
      have hd4 := (List.mem_filter.mp hd3).2
      have hcond : condHolds d ("_id", FieldCond.gtId L) = true := by
        have hmem : ("_id", FieldCond.gtId L)
            ∈ assocSet q "_id" (FieldCond.gtId L) := mem_assocSet_self
        exact (List.all_eq_true.mp hd4) _ hmem
      simpa [condHolds] using hcond
    · simp only [execPlan]
      exact List.length_take_le _ _

/-- Witness for C3: two documents above the bound, one below, page size
two, arbitrary page. -/
theorem get_keyset_pagination_witness :
    (GetOptions.pageSize
        { pageSize := some 2, lastId := some "b", page := some 9 }
          = some 2 ∧
     (0 : Int) < 2 ∧
     GetOptions.lastId
        { pageSize := some 2, lastId := some "b", page := some 9 }
          = some "b" ∧
     ("b" : String) ≠ "") ∧
    ((getPlan [] { pageSize := some 2, lastId := some "b", page := some 9 }).1.skip = none ∧
     (execPlan (fun _ l => l)
        [Doc.mk "a" [], Doc.mk "c" [], Doc.mk "d" []]
        (getPlan [] { pageSize := some 2, lastId := some "b", page := some 9 }).1).all
        (fun d => decide ("b" < d.oid)) = true) :=
  ⟨⟨rfl, by decide, rfl, by decide⟩,
   (get_keyset_pagination [] { pageSize := some 2, lastId := some "b", page := some 9 }
       2 "b" rfl (by decide) rfl (by decide)).2.1,
   ((get_keyset_pagination [] { pageSize := some 2, lastId := some "b", page := some 9 }
       2 "b" rfl (by decide) rfl (by decide)).2.2.2.2
     (fun _ l => l) [Doc.mk "a" [], Doc.mk "c" [], Doc.mk "d" []]
     (fun _ _ _ hd => hd)).1⟩

/-- C4: with pageSize set (positive) and lastId unset, the executed plan
keeps the base filter, applies skip = pageSize * (page - 1) and
limit = pageSize with page defaulting to 1 when absent, so executing the
plan returns the slice of positions pageSize*(page-1) up to pageSize*page
of the effective sort order of the matching documents. -/
theorem get_offset_pagination (q : Filter) (o : GetOptions) (P N : Int)
    (hP : o.pageSize = some P) (hPpos : 0 < P)
    (hL : truthyStr o.lastId = false)
    (hN : o.page = some N ∨ (o.page = none ∧ N = 1)) (hNpos : 1 ≤ N) :
    (getPlan q o).1.filter = q ∧
    (getPlan q o).1.skip = some (P * (N - 1)) ∧
    (getPlan q o).1.limit = some P ∧
    (∀ sortFn db,
      execPlan sortFn db (getPlan q o).1 =
        ((sortFn ((getPlan q o).1.sort.getD [])
            (db.filter (fun d => d.matches q))).drop
          (P * (N - 1)).toNat).take P.toNat) := by
  have hPt : truthyInt o.pageSize = true := by
    rw [hP]
    simpa [truthyInt] using ne_of_gt hPpos
  have hpg : (if truthyInt o.page then o.page else some 1).getD 1 = N := by
    rcases hN with hpN | ⟨hpN, hN1⟩
    · have : truthyInt o.page = true := by
        rw [hpN]
        simpa [truthyInt] using ne_of_gt (lt_of_lt_of_le one_pos hNpos : (0:Int) < N)
      rw [if_pos this, hpN, Option.getD_some]
    · have : truthyInt o.page = false := by rw [hpN]; rfl
      rw [if_neg (by simp [this]), Option.getD_some, hN1]
  have hplan := getPlan_offset q o hPt hL
  refine ⟨?_, ?_, ?_, fun sortFn db => ?_⟩
  · rw [hplan]
  · rw [hplan]
    simp [hP, hpg]
  · rw [hplan, hP]
  · rw [hplan]
    simp only [execPlan, Option.getD_some]
    rw [hP, hpg]
    simp

/-- Witness for C4: five documents, page 2 of size 2 is the slice at
positions 2 and 3. -/
theorem get_offset_pagination_witness :
    (GetOptions.pageSize { pageSize := some 2, page := some 2 } = some 2 ∧
     (0 : Int) < 2 ∧
     truthyStr (GetOptions.lastId
        { pageSize := some 2, page := some 2 }) = false ∧
     GetOptions.page { pageSize := some 2, page := some 2 } = some 2 ∧
     (1 : Int) ≤ 2) ∧
    ((getPlan [] { pageSize := some 2, page := some 2 }).1.skip
        = some (2 * (2 - 1)) ∧
     execPlan (fun _ l => l)
        [Doc.mk "a" [], Doc.mk "b" [], Doc.mk "c" [], Doc.mk "d" [],
          Doc.mk "e" []]
        (getPlan [] { pageSize := some 2, page := some 2 }).1 =
       ((((fun (_ : List (String × Int)) (l : List Doc) => l)
            ((getPlan [] { pageSize := some 2, page := some 2 }).1.sort.getD [])
            (([Doc.mk "a" [], Doc.mk "b" [], Doc.mk "c" [], Doc.mk "d" [],
                Doc.mk "e" []] : List Doc).filter
              (fun d => d.matches []))).drop
          ((2 * ((2 : Int) - 1)).toNat)).take ((2 : Int).toNat))) :=
  ⟨⟨rfl, by decide, rfl, rfl, by decide⟩,
   (get_offset_pagination [] { pageSize := some 2, page := some 2 } 2 2
       rfl (by decide) rfl (Or.inl rfl) (by decide)).2.1,
   (get_offset_pagination [] { pageSize := some 2, page := some 2 } 2 2
       rfl (by decide) rfl (Or.inl rfl) (by decide)).2.2.2
     (fun _ l => l)
     [Doc.mk "a" [], Doc.mk "b" [], Doc.mk "c" [], Doc.mk "d" [],
       Doc.mk "e" []]⟩

/-- C5: if paging was applied and no sort was requested, the plan sorts
descending on the primary id; a bare nonzero direction is applied to the
primary id; a field-to-direction mapping is applied verbatim, replacing
the default. -/
theorem get_sort_rules (q : Filter) (o : GetOptions) :
    (truthyInt o.pageSize = true → o.sort = none →
      (getPlan q o).1.sort = some [("_id", -1)]) ∧
    (∀ d : Int, d ≠ 0 → o.sort = some (SortArg.dir d) →
      (getPlan q o).1.sort = some [("_id", d)]) ∧
    (∀ m, o.sort = some (SortArg.mapping m) →
      (getPlan q o).1.sort = some m) := by
  refine ⟨fun hP hS => ?_, fun d hd hS => ?_, fun m hS => ?_⟩
  · by_cases hL : truthyStr o.lastId = true
    · rw [getPlan_lastId q o hP hL]
      simp [hS, sortDefault, truthySort, normalizeSort]
    · rw [getPlan_offset q o hP (by simpa using hL)]
      simp [hS, sortDefault, truthySort, normalizeSort]
  · have hSt : truthySort o.sort = true := by
      rw [hS]
      simpa [truthySort] using hd
    have hdef : sortDefault o.sort = some (SortArg.dir d) := by
      unfold sortDefault
      rw [if_pos hSt, hS]
    by_cases hP : truthyInt o.pageSize = true
    · by_cases hL : truthyStr o.lastId = true
      · rw [getPlan_lastId q o hP hL]
        simp [hdef, normalizeSort]
      · rw [getPlan_offset q o hP (by simpa using hL)]
        simp [hdef, normalizeSort]
    · rw [getPlan_unpaged_sorted q o (by simpa using hP) hSt]
      simp [hS, normalizeSort]
  · have hSt : truthySort o.sort = true := by rw [hS]; rfl
    have hdef : sortDefault o.sort = some (SortArg.mapping m) := by
      unfold sortDefault
      rw [if_pos hSt, hS]
    by_cases hP : truthyInt o.pageSize = true
    · by_cases hL : truthyStr o.lastId = true
      · rw [getPlan_lastId q o hP hL]
        simp [hdef, normalizeSort]
      · rw [getPlan_offset q o hP (by simpa using hL)]
        simp [hdef, normalizeSort]
    · rw [getPlan_unpaged_sorted q o (by simpa using hP) hSt]
      simp [hS, normalizeSort]

/-- Witness for C5: default descending sort on the primary id under
paging without an explicit sort. -/
theorem get_sort_rules_witness :
    (truthyInt (GetOptions.pageSize { pageSize := some 3 }) = true ∧
     GetOptions.sort { pageSize := some 3 } = none) ∧
    (getPlan [] { pageSize := some 3 }).1.sort = some [("_id", -1)] :=
  ⟨⟨by decide, rfl⟩,
   (get_sort_rules [] { pageSize := some 3 }).1 (by decide) rfl⟩

/-- C6 counterexample: a filter matching two documents; the update reaches
both, but the callback receives only the re-fetch of the first matched id
-- one document, not the two affected ones -- contradicting the claim
that every matching document is read back. -/
theorem set_refetch_cex :
    (ModelClass.set [Doc.mk "a" [("x", 1)], Doc.mk "b" [("x", 1)]]
        [("x", FieldCond.eqVal 1)] [("y", 2)]).2.2
      = some [Doc.mk "a" [("x", 1), ("y", 2)]] ∧
    ((([Doc.mk "a" [("x", 1)], Doc.mk "b" [("x", 1)]] : List Doc).filter
        (fun d => d.matches [("x", FieldCond.eqVal 1)])).length = 2) ∧
    (ModelClass.set [Doc.mk "a" [("x", 1)], Doc.mk "b" [("x", 1)]]
        [("x", FieldCond.eqVal 1)] [("y", 2)]).2.2
      ≠ some ((ModelClass.set [Doc.mk "a" [("x", 1)],
            Doc.mk "b" [("x", 1)]]
          [("x", FieldCond.eqVal 1)] [("y", 2)]).1.filter
            (fun d => d.matches [("x", FieldCond.eqVal 1)])) := by
  decide

/-- C6 amended: when the filter matches at least one document, the $set
merge update is applied to every matching document, but the callback
receives only the re-fetch keyed by the id of the first match -- the first
affected document read back after the update, not all of them. -/
theorem set_multi_update_refetch_first (db : List Doc) (q : Filter)
    (data : List (String × Int)) (r : Doc) (rs : List Doc)
    (h : db.filter (fun d => d.matches q) = r :: rs) :
    ModelClass.set db q data =
      (db.map (fun d =>
          if d.matches q then ModelClass.applySet d data else d),
       (none,
        some ((db.map (fun d =>
            if d.matches q then ModelClass.applySet d data else d)).filter
          (fun d => d.matches [("_id", FieldCond.eqId r.oid)])))) := by
  unfold ModelClass.set
  rw [h]

/-- Witness for C6 amended at a two-match store. -/
theorem set_multi_update_refetch_first_witness :
    (([Doc.mk "a" [("x", 1)], Doc.mk "b" [("x", 1)]] : List Doc).filter
        (fun d => d.matches [("x", FieldCond.eqVal 1)])
      = Doc.mk "a" [("x", 1)] :: [Doc.mk "b" [("x", 1)]]) ∧
    ModelClass.set [Doc.mk "a" [("x", 1)], Doc.mk "b" [("x", 1)]]
        [("x", FieldCond.eqVal 1)] [("y", 2)] =
      (([Doc.mk "a" [("x", 1)], Doc.mk "b" [("x", 1)]] : List Doc).map
        (fun d => if d.matches [("x", FieldCond.eqVal 1)]
          then ModelClass.applySet d [("y", 2)] else d),
       (none,
        some ((([Doc.mk "a" [("x", 1)], Doc.mk "b" [("x", 1)]] :
            List Doc).map
          (fun d => if d.matches [("x", FieldCond.eqVal 1)]
            then ModelClass.applySet d [("y", 2)] else d)).filter
          (fun d => d.matches
            [("_id", FieldCond.eqId (Doc.mk "a" [("x", 1)]).oid)])))) :=
  ⟨by decide,
   set_multi_update_refetch_first [Doc.mk "a" [("x", 1)],
       Doc.mk "b" [("x", 1)]]
     [("x", FieldCond.eqVal 1)] [("y", 2)] (Doc.mk "a" [("x", 1)])
     [Doc.mk "b" [("x", 1)]] (by decide)⟩

/-- C10 counterexample: with lastId set but pageSize unset, `get` returns
the filter and options objects of the caller exactly as supplied -- no `_id`
greater-than constraint is written into the filter -- contradicting the
claim that whenever lastId is set the filter is mutated. -/
theorem get_mutation_cex :
    (getPlan [] { lastId := some "aa" }).2.1 = ([] : Filter) ∧
    (getPlan [] { lastId := some "aa" }).2.2
      = { lastId := some "aa" } := by
  decide

/-- C10 amended: the argument mutations happen only under a truthy
pageSize: with lastId also truthy, `get` writes the `_id` greater-than
constraint into the filter of the caller and the defaulted sort into the
options; with lastId falsy it leaves the filter unchanged and
writes the defaulted page and sort into the options; with pageSize falsy
both caller objects come back unchanged. -/
theorem get_mutates_arguments (q : Filter) (o : GetOptions) :
    (truthyInt o.pageSize = true → truthyStr o.lastId = true →
      (getPlan q o).2.1
          = assocSet q "_id" (FieldCond.gtId (o.lastId.getD "")) ∧
      (getPlan q o).2.2 = { o with sort := sortDefault o.sort }) ∧
    (truthyInt o.pageSize = true → truthyStr o.lastId = false →
      (getPlan q o).2.1 = q ∧
      (getPlan q o).2.2 = { o with
        page := if truthyInt o.page then o.page else some 1,
        sort := sortDefault o.sort }) ∧
    (truthyInt o.pageSize = false →
      (getPlan q o).2.1 = q ∧ (getPlan q o).2.2 = o) := by
  refine ⟨fun hP hL => ?_, fun hP hL => ?_, fun hP => ?_⟩
  · rw [getPlan_lastId q o hP hL]
    exact ⟨rfl, rfl⟩
  · rw [getPlan_offset q o hP hL]
    exact ⟨rfl, rfl⟩
  · by_cases hS : truthySort o.sort = true
    · rw [getPlan_unpaged_sorted q o hP hS]
      exact ⟨rfl, rfl⟩
    · rw [getPlan_unpaged_plain q o hP (by simpa using hS)]
      exact ⟨rfl, rfl⟩

/-- Witness for C10 amended: keyset paging writes the bound into the
filter of the caller. -/
theorem get_mutates_arguments_witness :
    (truthyInt (GetOptions.pageSize
        { pageSize := some 2, lastId := some "aa" }) = true ∧
     truthyStr (GetOptions.lastId
        { pageSize := some 2, lastId := some "aa" }) = true) ∧
    ((getPlan [("k", FieldCond.eqVal 3)]
        { pageSize := some 2, lastId := some "aa" }).2.1
      = assocSet [("k", FieldCond.eqVal 3)] "_id" (FieldCond.gtId
          (Option.getD (GetOptions.lastId
            { pageSize := some 2, lastId := some "aa" }) "")) ∧
     (getPlan [("k", FieldCond.eqVal 3)]
        { pageSize := some 2, lastId := some "aa" }).2.2
      = { pageSize := some 2, lastId := some "aa",
          sort := sortDefault (GetOptions.sort
            { pageSize := some 2, lastId := some "aa" }) }) :=
  ⟨⟨by decide, by decide⟩,
   (get_mutates_arguments [("k", FieldCond.eqVal 3)]
       { pageSize := some 2, lastId := some "aa" }).1
     (by decide) (by decide)⟩

/-- C9: at every entry point taking an optional options object and an
optional callback (get, getAll, update, formatUri), a callable in the
options position becomes the callback with options reset to the empty
mapping, a missing callback is replaced by the no-op so the resolved
callback is always callable, and all four entry points resolve
identically. -/
theorem argument_resolution_uniform {α : Type} (o : OptArg α) (c : CbVal)
    (dflt : α) :
    resolveGet o c dflt = resolveUpdate o c dflt ∧
    resolveGet o c dflt = resolveFormatUri o c dflt ∧
    resolveGet o c dflt = resolveGetAll o c dflt ∧
    (∀ f, o = OptArg.callable f →
      resolveGet o c dflt = (dflt, CbVal.fn f)) ∧
    (c = CbVal.undef → OptArg.isCallable o = false →
      (resolveGet o c dflt).2 = CbVal.noop) ∧
    (resolveGet o c dflt).2 ≠ CbVal.undef := by
  cases o <;> cases c <;>
    simp [resolveGet, resolveUpdate, resolveFormatUri, resolveGetAll,
      OptArg.isCallable]

/-- Witness for C9: a callable in the options position of `get` with no
callback supplied. -/
theorem argument_resolution_uniform_witness :
    ((OptArg.callable 7 : OptArg GetOptions) = OptArg.callable 7) ∧
    (resolveGet (OptArg.callable 7 : OptArg GetOptions) CbVal.undef { }
        = resolveFormatUri (OptArg.callable 7) CbVal.undef { } ∧
     resolveGet (OptArg.callable 7 : OptArg GetOptions) CbVal.undef { }
        = ({ }, CbVal.fn 7)) :=
  ⟨rfl,
   (argument_resolution_uniform (OptArg.callable 7 : OptArg GetOptions)
       CbVal.undef { }).2.1,
   (argument_resolution_uniform (OptArg.callable 7 : OptArg GetOptions)
       CbVal.undef { }).2.2.2.1 7 rfl⟩

/-- C8 counterexample: with an empty options object supplied, the options
mapping stored for the driver is not the supplied mapping with only user,
pass and port removed -- the source has also set `useMongoClient` to
true -- contradicting the claim that nothing else is changed. -/
theorem formatUri_options_cex :
    ((Connection.formatUri { name := "db" }
        { dbServer := "localhost", dbName := "test",
          dbOptions := OptArg.obj { }, callback := CbVal.undef }).1.connectOptions
      ≠ some ({ } : DbOptions)) ∧
    ((Connection.formatUri { name := "db" }
        { dbServer := "localhost", dbName := "test",
          dbOptions := OptArg.obj { }, callback := CbVal.undef }).1.connectOptions
      = some ({ useMongoClient := some true } : DbOptions)) := by
  decide

/-- C8 amended: the uri has the form scheme://[user:pass@]host:port/dbName
-- credentials included exactly when user and pass are both truthy, port
defaulting to 27017 -- and the forwarded options are the supplied options
with user, pass and port removed and, additionally, useMongoClient set to
true. -/
theorem formatUri_spec (c : Connection) (server dbName : String)
    (o : DbOptions) (cb : CbVal) :
    ((Connection.formatUri c
        { dbServer := server, dbName := dbName,
          dbOptions := OptArg.obj o, callback := cb }).1.connectOptions
      = some { o with user := none, pass := none, port := none,
                      useMongoClient := some true }) ∧
    (truthyStr o.user = true → truthyStr o.pass = true →
      (Connection.formatUri c
          { dbServer := server, dbName := dbName,
            dbOptions := OptArg.obj o, callback := cb }).1.connectUri
        = some ("mongodb://" ++ o.user.getD "" ++ ":" ++ o.pass.getD ""
            ++ "@" ++ server ++ ":"
            ++ toString (if truthyInt o.port then o.port.getD 0 else (27017 : Int))
            ++ "/" ++ dbName)) ∧
    ((truthyStr o.user = false ∨ truthyStr o.pass = false) →
      (Connection.formatUri c
          { dbServer := server, dbName := dbName,
            dbOptions := OptArg.obj o, callback := cb }).1.connectUri
        = some ("mongodb://" ++ server ++ ":"
            ++ toString (if truthyInt o.port then o.port.getD 0 else (27017 : Int))
            ++ "/" ++ dbName)) ∧
    (o.port = none →
      (if truthyInt o.port then o.port.getD 0 else (27017 : Int)) = 27017) := by
  refine ⟨?_, fun hu hp => ?_, fun h => ?_, fun hn => ?_⟩
  · simp [Connection.formatUri, resolveFormatUri]
  · simp [Connection.formatUri, resolveFormatUri, hu, hp]
  · rcases h with h | h <;>
      simp [Connection.formatUri, resolveFormatUri, h]
  · rw [hn]
    rfl

/-- Witness for C8 amended: credentials, an explicit port and an extra
field survive as specified. -/
theorem formatUri_spec_witness :
    (truthyStr (DbOptions.user { user := some "u", pass := some "p", port := some 4, extra := [("w", 1)] }) = true ∧
     truthyStr (DbOptions.pass { user := some "u", pass := some "p", port := some 4, extra := [("w", 1)] }) = true) ∧
    ((Connection.formatUri { name := "db" } { dbServer := "h", dbName := "d", dbOptions := OptArg.obj { user := some "u", pass := some "p", port := some 4, extra := [("w", 1)] }, callback := CbVal.undef }).1.connectOptions
      = some { ({ user := some "u", pass := some "p", port := some 4, extra := [("w", 1)] } : DbOptions) with user := none, pass := none, port := none, useMongoClient := some true } ∧
     (Connection.formatUri { name := "db" } { dbServer := "h", dbName := "d", dbOptions := OptArg.obj { user := some "u", pass := some "p", port := some 4, extra := [("w", 1)] }, callback := CbVal.undef }).1.connectUri
      = some ("mongodb://"
          ++ Option.getD (DbOptions.user { user := some "u", pass := some "p", port := some 4, extra := [("w", 1)] }) ""
          ++ ":"
          ++ Option.getD (DbOptions.pass { user := some "u", pass := some "p", port := some 4, extra := [("w", 1)] }) ""
          ++ "@" ++ "h" ++ ":"
          ++ toString (if truthyInt (DbOptions.port { user := some "u", pass := some "p", port := some 4, extra := [("w", 1)] }) then Option.getD (DbOptions.port { user := some "u", pass := some "p", port := some 4, extra := [("w", 1)] }) 0 else (27017 : Int))
          ++ "/" ++ "d")) :=
  ⟨⟨by decide, by decide⟩,
   (formatUri_spec { name := "db" } "h" "d" { user := some "u", pass := some "p", port := some 4, extra := [("w", 1)] } CbVal.undef).1,
   (formatUri_spec { name := "db" } "h" "d" { user := some "u", pass := some "p", port := some 4, extra := [("w", 1)] } CbVal.undef).2.1 (by decide) (by decide)⟩

/-- C7: well-formedness of the registry (at most one handle per name among
its invariants) is preserved by `connectDatebase`, the connected name
occurs exactly once afterwards, a handle is always returned, and when a
handle already exists under the name that very handle identity is returned
with no new handle allocated; a currently connected handle is closed first
(flag cleared) and then reopened with the new arguments, a disconnected
one is opened directly with the new arguments. -/
theorem connectDatebase_registry (st : Registry) (name : String)
    (a : OpenArgs) (hwf : st.wf) :
    (connectDatebase st name a).1.wf ∧
    ((connectDatebase st name a).1.connections.map Prod.fst).count name
      = 1 ∧
    ((connectDatebase st name a).2.isSome = true) ∧
    (∀ cid, st.connections.lookup name = some cid →
      (connectDatebase st name a).2 = some cid ∧
      (connectDatebase st name a).1.heap.map Prod.fst
        = st.heap.map Prod.fst ∧
      (∀ conn, st.heap.lookup cid = some conn →
        (connectDatebase st name a).1.heap.lookup cid =
          some (if conn.connected then
                  Connection.openConn
                    { Connection.close conn with connected := false } a
                else Connection.openConn conn a))) := by
  obtain ⟨hnd, hmc, hlk, hhnd, hbound⟩ := hwf
  cases hcase : st.connections.lookup name with
  | some cid =>
    have hpair : (name, cid) ∈ st.connections := assoc_lookup_mem hcase
    have hname_mem : name ∈ st.connections.map Prod.fst :=
      List.mem_map.mpr ⟨(name, cid), hpair, rfl⟩
    have hheapSome : (st.heap.lookup cid).isSome = true := hlk _ hpair
    obtain ⟨conn, hconn⟩ := Option.isSome_iff_exists.mp hheapSome
    have hany : st.heap.any (fun p => p.1 == cid) = true :=
      assoc_any_of_lookup_isSome (by rw [hconn]; rfl)
    have hred : connectDatebase st name a =
        ({ st with heap := assocSet st.heap cid (if conn.connected then Connection.openConn { Connection.close conn with connected := false } a else Connection.openConn conn a) },
         st.members.lookup name) := by
      simp only [connectDatebase, hcase, hconn]
    have hmemlook : st.members.lookup name = some cid := by
      rw [hmc]; exact hcase
    refine ⟨?_, ?_, ?_, ?_⟩
    · rw [hred]
      refine ⟨hnd, hmc, ?_, ?_, ?_⟩
      · intro p hp
        rw [assocSet_lookup_isSome p.2 hany]
        exact hlk p hp
      · rw [assocSet_map_fst hany]
        exact hhnd
      · intro p hp
        have hpk : p.1 ∈ (assocSet st.heap cid (if conn.connected then Connection.openConn { Connection.close conn with connected := false } a else Connection.openConn conn a)).map Prod.fst :=
          List.mem_map_of_mem _ hp
        rw [assocSet_map_fst hany] at hpk
        obtain ⟨q, hq, hq1⟩ := List.mem_map.mp hpk
        exact hq1 ▸ hbound q hq
    · rw [hred]
      exact List.count_eq_one_of_mem hnd hname_mem
    · rw [hred]
      show (st.members.lookup name).isSome = true
      rw [hmemlook]
      rfl
    · intro cid2 hcid2
      obtain rfl : cid = cid2 := Option.some.inj hcid2
      refine ⟨?_, ?_, ?_⟩
      · rw [hred]
        exact hmemlook
      · rw [hred]
        exact assocSet_map_fst hany
      · intro conn3 hconn3
        rw [hconn] at hconn3
        obtain rfl : conn = conn3 := Option.some.inj hconn3
        rw [hred]
        exact assocSet_lookup_self hany
  | none =>
    have hkeys := assoc_lookup_none_key hcase
    have hnomem : name ∉ st.connections.map Prod.fst := by
      intro hmem
      obtain ⟨p, hp, hp1⟩ := List.mem_map.mp hmem
      have hfalse := hkeys p hp
      rw [hp1] at hfalse
      simp at hfalse
    have hanyC : st.connections.any (fun p => p.1 == name) = false :=
      any_key_eq_false hkeys
    have hanyM : st.members.any (fun p => p.1 == name) = false := by
      rw [hmc]; exact hanyC
    have hkeysH : ∀ p ∈ st.heap, (p.1 == st.nextId) = false :=
      fun p hp => beq_eq_false_iff_ne.mpr (ne_of_lt (hbound p hp))
    have hanyH : st.heap.any (fun p => p.1 == st.nextId) = false :=
      any_key_eq_false hkeysH
    have hlookM : st.members.lookup name = none := by
      rw [hmc]; exact hcase
    have hlookH : st.heap.lookup st.nextId = none :=
      assoc_none_of_no_key hkeysH
    have hred : connectDatebase st name a =
        ({ st with
            members := st.members ++ [(name, st.nextId)],
            connections := st.connections ++ [(name, st.nextId)],
            heap := st.heap ++ [(st.nextId, Connection.openConn { name := name } a)],
            nextId := st.nextId + 1 },
         some st.nextId) := by
      simp only [connectDatebase, hcase]
      rw [assocSet_of_no_key hanyC, assocSet_of_no_key hanyM,
        assocSet_of_no_key hanyH]
      rw [assoc_lookup_append_right hlookM]
      simp [List.lookup_cons]
    refine ⟨?_, ?_, ?_, ?_⟩
    · rw [hred]
      refine ⟨?_, ?_, ?_, ?_, ?_⟩
      · rw [List.map_append, List.nodup_append]
        refine ⟨hnd, List.nodup_singleton _, ?_⟩
        intro x hx hx2
        simp only [List.map_cons, List.map_nil, List.mem_singleton] at hx2
        subst hx2
        exact hnomem hx
      · rw [hmc]
      · intro p hp
        rcases List.mem_append.mp hp with hp1 | hp2
        · obtain ⟨v, hv⟩ := Option.isSome_iff_exists.mp (hlk p hp1)
          rw [assoc_lookup_append_left hv]
          rfl
        · have hp3 : p = (name, st.nextId) := by simpa using hp2
          subst hp3
          rw [assoc_lookup_append_right hlookH]
          simp [List.lookup_cons]
      · rw [List.map_append, List.nodup_append]
        refine ⟨hhnd, List.nodup_singleton _, ?_⟩
        intro x hx hx2
        simp only [List.map_cons, List.map_nil, List.mem_singleton] at hx2
        subst hx2
        obtain ⟨q, hq, hq1⟩ := List.mem_map.mp hx
        exact absurd (hq1 ▸ hbound q hq) (lt_irrefl _)
      · intro p hp
        rcases List.mem_append.mp hp with hp1 | hp2
        · exact Nat.lt_succ_of_lt (hbound p hp1)
        · have hp3 : p = (st.nextId,
              Connection.openConn { name := name } a) := by simpa using hp2
          rw [hp3]
          exact Nat.lt_succ_self _
    · rw [hred]
      rw [List.map_append, List.count_append,
        List.count_eq_zero_of_not_mem hnomem]
      simp
    · rw [hred]
      rfl
    · intro cid hcid
      exact Option.noConfusion hcid

/-- Witness for C7: a registry holding one connected handle named db,
reconnected with new arguments. -/
theorem connectDatebase_registry_witness :
    (Registry.wf { connections := [("db", 0)], members := [("db", 0)], heap := [(0, { name := "db", connected := true })], nextId := 1 } ∧
     List.lookup "db" (Registry.connections { connections := [("db", 0)], members := [("db", 0)], heap := [(0, { name := "db", connected := true })], nextId := 1 }) = some 0 ∧
     List.lookup 0 (Registry.heap { connections := [("db", 0)], members := [("db", 0)], heap := [(0, { name := "db", connected := true })], nextId := 1 }) = some ({ name := "db", connected := true } : Connection)) ∧
    ((connectDatebase { connections := [("db", 0)], members := [("db", 0)], heap := [(0, { name := "db", connected := true })], nextId := 1 } "db" { dbServer := "localhost", dbName := "d" }).2 = some 0 ∧
     (connectDatebase { connections := [("db", 0)], members := [("db", 0)], heap := [(0, { name := "db", connected := true })], nextId := 1 } "db" { dbServer := "localhost", dbName := "d" }).1.heap.lookup 0 =
       some (if (({ name := "db", connected := true } : Connection)).connected then Connection.openConn { Connection.close ({ name := "db", connected := true } : Connection) with connected := false } { dbServer := "localhost", dbName := "d" } else Connection.openConn ({ name := "db", connected := true } : Connection) { dbServer := "localhost", dbName := "d" })) :=
  ⟨⟨by decide, by decide, by decide⟩,
   ((connectDatebase_registry { connections := [("db", 0)], members := [("db", 0)], heap := [(0, { name := "db", connected := true })], nextId := 1 } "db" { dbServer := "localhost", dbName := "d" } (by decide)).2.2.2 0 (by decide)).1,
   (((connectDatebase_registry { connections := [("db", 0)], members := [("db", 0)], heap := [(0, { name := "db", connected := true })], nextId := 1 } "db" { dbServer := "localhost", dbName := "d" } (by decide)).2.2.2 0 (by decide)).2.2 ({ name := "db", connected := true } : Connection) (by decide))⟩

end MongooseExt
